import Mathlib

/-!
Shallow embedding of the orpheusdl-youtube module core
(`interface.py` and `youtube_api.py`) and proofs about it.

Python strings are modelled as `List Char` (wrapped in `String` at the
interfaces).  Python regular-expression behaviour is embedded for the
concrete, fixed patterns that appear in the source, with Python `re`
semantics (leftmost match, lazy/greedy quantifiers with backtracking,
ordered alternation, `IGNORECASE` as ASCII case folding).  Python
truthiness of strings ("" is falsy) and of optional values (None is
falsy) is made explicit.  Numbers that the source only compares and
defaults (bitrates) are modelled as `Int`; the float `sample_rate`
constant is not modelled.
-/

namespace YT

/-- Python `\s` (ASCII range, as used by the inputs of this module). -/
def isSpc (c : Char) : Bool :=
  c = ' ' || c = '\t' || c = '\n' || c = '\r' || c = '\x0b' || c = '\x0c'

/-- Python `\w` (ASCII range). -/
def isWordChar (c : Char) : Bool :=
  c.isAlpha || c.isDigit || c = '_'

/-- `[a-zA-Z0-9_-]`, the id-character class of `parse_youtube_url`. -/
def idChar (c : Char) : Bool :=
  c.isAlpha || c.isDigit || c = '_' || c = '-'

/-- ASCII lowering, the effect of Python `str.lower()` / `re.IGNORECASE`
on the ASCII inputs this module handles. -/
def lowerL (l : List Char) : List Char := l.map Char.toLower

/-- `w` is a literal prefix of `l` (exact case). -/
def seqStarts : List Char → List Char → Bool
  | [], _ => true
  | _ :: _, [] => false
  | a :: ws, b :: ls => a = b && seqStarts ws ls

/-- `w` is a literal prefix of `l`, compared case-insensitively (ASCII). -/
def ciStarts : List Char → List Char → Bool
  | [], _ => true
  | _ :: _, [] => false
  | a :: ws, b :: ls => a.toLower = b.toLower && ciStarts ws ls

/-- Python `needle in hay` for strings: contiguous substring test
(the empty needle is contained in everything). -/
def seqHas (needle : List Char) : List Char → Bool
  | [] => needle.isEmpty
  | c :: ls => seqStarts needle (c :: ls) || seqHas needle ls

/-- Python `str.strip()` on the whitespace of `isSpc`. -/
def stripL (l : List Char) : List Char :=
  (l.dropWhile isSpc).rdropWhile isSpc

/-! ### `_parse_title_artist` (interface.py lines 181-202)

The regex is `^(?P<artist>.+?)\s+[-:–]\s+(?P<title>.+)$`, applied with
`re.search`.  `.` does not match a newline; `$` matches at the end of the
string or just before a final newline; `.+?` is lazy (shortest artist
first); `\s+` is greedy with backtracking. -/

/-- One of the separator characters `[-:–]`. -/
def isSepChar (c : Char) : Bool := c = '-' || c = ':' || c = '–'

/-- Match `(?P<title>.+)$` against `l`: a non-empty run of non-newline
characters followed by end of string or a single final newline. -/
def matchTitleGroup (l : List Char) : Option (List Char) :=
  let p := l.takeWhile (fun c => c ≠ '\n')
  let r := l.dropWhile (fun c => c ≠ '\n')
  if p ≠ [] ∧ (r = [] ∨ r = ['\n']) then some p else none

/-- Backtrack the second `\s+` of the separator: try consuming `k`
whitespace characters of `l` (largest first, at least one), then match
the title group on the rest. -/
def tryWsTitle : Nat → List Char → Option (List Char)
  | 0, _ => none
  | k + 1, l =>
    match matchTitleGroup (l.drop (k + 1)) with
    | some t => some t
    | none => tryWsTitle k l

/-- Match `\s+[-:–]\s+(?P<title>.+)$` against `l`.  The first `\s+` is
forced to the whole whitespace run (a separator character is never
whitespace), the second backtracks via `tryWsTitle`. -/
def matchSepTail (l : List Char) : Option (List Char) :=
  let r1 := (l.takeWhile isSpc).length
  if r1 = 0 then none
  else
    match l.drop r1 with
    | [] => none
    | c :: rest =>
      if isSepChar c then tryWsTitle ((rest.takeWhile isSpc).length) rest
      else none

/-- Lazy `(?P<artist>.+?)`: grow the artist group one (non-newline)
character at a time and try the separator tail after it. -/
def splitGo (acc : List Char) : List Char → Option (List Char × List Char)
  | [] => none
  | c :: rs =>
    if c = '\n' then none
    else
      match matchSepTail rs with
      | some t => some (acc ++ [c], t)
      | none => splitGo (acc ++ [c]) rs

/-- `re.search(r"^(?P<artist>.+?)\s+[-:–]\s+(?P<title>.+)$", title)`:
the raw (unstripped) artist and title groups of the first match. -/
def pyMatchSplit (s : List Char) : Option (List Char × List Char) :=
  splitGo [] s

/-- `_parse_title_artist` on `List Char`: accept the split only if the
case-insensitive containment check passes in either direction, else fall
back to `(uploader, title)`. -/
def parseTitleArtistL (title uploader : List Char) : List Char × List Char :=
  match pyMatchSplit title with
  | some (a, t) =>
    let ea := stripL a
    let et := stripL t
    if seqHas (lowerL uploader) (lowerL ea) || seqHas (lowerL ea) (lowerL uploader)
    then (ea, et)
    else (uploader, title)
  | none => (uploader, title)

/-- `_parse_title_artist` at the `String` interface. -/
def parseTitleArtist (title uploader : String) : String × String :=
  let p := parseTitleArtistL title.data uploader.data
  (⟨p.1⟩, ⟨p.2⟩)

/-! ### `_clean_title` (interface.py lines 204-268)

Pipeline: en-dash normalization, hashtag-run removal
(`re.sub(r'\s*#\w+.*$', '', title)`), removal of delimiter-bounded
vocabulary tags
(`re.sub(r'\s*[\(\[\|\{\-\.\/•\+]\s*(tag1|tag2|...)\s*(?:[\)\]\|\}\-\.\/•\+]|\s*$)', '', title, flags=re.IGNORECASE)`),
then whitespace collapse (`re.sub(r'\s+', ' ', t)`) and `strip()`. -/

/-- The opening delimiter class `[\(\[\|\{\-\.\/•\+]`. -/
def isLeftDelim (c : Char) : Bool :=
  c = '(' || c = '[' || c = '|' || c = '{' || c = '-' || c = '.' || c = '/' || c = '•' || c = '+'

/-- The closing delimiter class `[\)\]\|\}\-\.\/•\+]`. -/
def isRightDelim (c : Char) : Bool :=
  c = ')' || c = ']' || c = '|' || c = '}' || c = '-' || c = '.' || c = '/' || c = '•' || c = '+'

/-- One alternative of the tag alternation: a literal phrase (after
unescaping), or the one non-literal pattern `Remastered \d+`. -/
inductive TagPat where
  | lit (w : List Char)
  | remNum
deriving DecidableEq

/-- Literal tag from a string. -/
def tl (s : String) : TagPat := .lit s.data

/-- The tag vocabulary, in source order (interface.py lines 217-254). -/
def tagVocab : List TagPat := [
  -- Video & Visual
  tl "Official Video", tl "Official Music Video", tl "Official Lyric Video",
  tl "Music Video", tl "Lyric Video", tl "Video Oficial", tl "Videoclip Oficial",
  tl "Official", tl "Video", tl "Pseudo Video", tl "Visualizer", tl "VISUALIZER",
  tl "Official HD Video", tl "Official 4K Video", tl "Premiere", tl "Visualizer Video",
  tl "Official CantoYo Video", tl "Official Video HD", tl "Official Trailer",
  tl "M/V", tl "Cover Audio Video", tl "Remastered Video", tl "Acoustic Video",
  tl "Offical Video", tl "Visualiser", tl "Animated Lyric Video",
  tl "Official Video Remastered HD", tl "Lyrics / Lyric Video",
  tl "Official Live Video", tl "Official Classic Version", tl "Animated Video",
  tl "Official Video 2016", tl "Official Video 2021", tl "Official Video HQ",
  tl "Official Music Vidéo", tl "VIDEO OFFICIAL", tl "Official Vedio",
  tl "**OFFICIAL VIDEO**", tl "Pop-up Video",
  -- Audio & Stream
  tl "Audio", tl "Official Audio", tl "Audio Stream", tl "Official Full Stream",
  tl "Cover Art", tl "Audio Only", tl "Audio Officiel", tl "Audio Oficial",
  -- Quality & Technical
  tl "HD", tl "4K Remaster", TagPat.remNum, tl "Full HD Remastered",
  tl "Best Quality", tl "Ultra High Quality", tl "60fps", tl "98 BPM_G major",
  tl "Stereo", tl "HQ + Lyrics", tl "HQ", tl "HQ Remaster", tl "wmv", tl "30sec",
  tl "720P", tl "1080P", tl "flv", tl "mov", tl "Full Version HD", tl "in 4K",
  tl "HQ HD Dirty", tl "HD Widescreen Music Video",
  -- Content & Metadata
  tl "Explicit", tl "UNCENSORED", tl "Lyrics", tl "Free", tl "w/ Lyrics",
  tl "Ultra Music", tl "Spinnin Records", tl "OUT NOW", tl "OUT NOW!",
  tl "YHLQMDLG", tl "TopPop", tl "LYRICS!!", tl "Ringtone Download",
  tl "New Single", tl "English", tl "FREE DOWNLOAD", tl "LYRICS",
  tl "with lyrics", tl "with download link", tl "DOWNLOAD AVAILABLE!",
  tl "Original", tl "original", tl "Full Length", tl "FULL", tl "Lyrics Video",
  tl "CDQ", tl "New/CDQ/Dirty", tl "on ITUNES NOW", tl "Original Radio",
  tl "Out Now!", tl "DVD Cut", tl "Lyriclizer", tl "Official Version",
  tl "WSHH Exclusive", tl "WSHH Premiere", tl "CLIPE OFICIAL",
  tl "non-official recut", tl "Dirty", tl "Videoclip"]

/-- Candidate consumed lengths of one alternative at the head of `l`,
in the order the regex engine tries them (for `Remastered \d+` the
greedy `\d+` backtracks from the longest digit run down to one digit). -/
def tagMatchLens (p : TagPat) (l : List Char) : List Nat :=
  match p with
  | .lit w => if ciStarts w l then [w.length] else []
  | .remNum =>
    let w := "Remastered ".data
    if ciStarts w l then
      let d := ((l.drop w.length).takeWhile Char.isDigit).length
      (List.range d).map (fun i => w.length + d - i)
    else []

/-- Match `\s*(?:[\)\]\|\}\-\.\/•\+]|\s*$)` at the head of `l`, returning
the consumed length.  The greedy `\s*` consumes the whole whitespace run;
what follows must be a closing delimiter (consumed) or the end of the
string. -/
def tagRightEnd (l : List Char) : Option Nat :=
  let r := (l.takeWhile isSpc).length
  match l.drop r with
  | [] => some r
  | c :: _ => if isRightDelim c then some (r + 1) else none

/-- Try the candidate tag lengths in order, completing each with the
right-delimiter part; backtrack to the next candidate on failure. -/
def tryTagLens (cands : List Nat) (l : List Char) : Option Nat :=
  match cands with
  | [] => none
  | n :: ns =>
    match tagRightEnd (l.drop n) with
    | some m => some (n + m)
    | none => tryTagLens ns l

/-- Ordered alternation over the vocabulary at the head of `l`. -/
def tagAlt (ps : List TagPat) (l : List Char) : Option Nat :=
  match ps with
  | [] => none
  | p :: rest =>
    match tryTagLens (tagMatchLens p l) l with
    | some n => some n
    | none => tagAlt rest l

/-- Match the whole tag pattern at the head of `l`
(`\s*[open]\s*(alternation)\s*(?:[close]|\s*$)`), returning the consumed
length.  Both `\s*` are forced to the full whitespace run, since neither
a delimiter nor a tag starts with whitespace. -/
def tagMatchAt (l : List Char) : Option Nat :=
  let r := (l.takeWhile isSpc).length
  match l.drop r with
  | [] => none
  | c :: rest =>
    if isLeftDelim c then
      let r2 := (rest.takeWhile isSpc).length
      match tagAlt tagVocab (rest.drop r2) with
      | some n => some (r + 1 + r2 + n)
      | none => none
    else none

/-- `re.sub` scan for the tag pattern: at each position try a match;
on success remove it and continue scanning after the match. -/
def tagSubGo (fuel : Nat) (l : List Char) : List Char :=
  match fuel with
  | 0 => l
  | fuel' + 1 =>
    match l with
    | [] => []
    | c :: rs =>
      match tagMatchAt (c :: rs) with
      | some m => tagSubGo fuel' ((c :: rs).drop m)
      | none => c :: tagSubGo fuel' rs

/-- Global removal of delimiter-bounded vocabulary tags. -/
def tagSub (l : List Char) : List Char := tagSubGo (l.length + 1) l

/-- Match `\s*#\w+.*$` at the head of `l`, returning the consumed length:
whitespace, `#`, at least one word character, then everything up to the
end of the string (a single final newline may stay unconsumed; an
interior newline makes the match fail, since `.` does not cross it). -/
def hashMatchAt (l : List Char) : Option Nat :=
  let r := (l.takeWhile isSpc).length
  match l.drop r with
  | '#' :: rest =>
    if (rest.takeWhile isWordChar).length = 0 then none
    else
      let after := rest.drop ((rest.takeWhile isWordChar).length)
      if after.all (fun c => c ≠ '\n') then some l.length
      else if after.dropWhile (fun c => c ≠ '\n') = ['\n'] then some (l.length - 1)
      else none
  | _ => none

/-- `re.sub` scan for the hashtag pattern. -/
def hashSubGo (fuel : Nat) (l : List Char) : List Char :=
  match fuel with
  | 0 => l
  | fuel' + 1 =>
    match l with
    | [] => []
    | c :: rs =>
      match hashMatchAt (c :: rs) with
      | some m => hashSubGo fuel' ((c :: rs).drop m)
      | none => c :: hashSubGo fuel' rs

/-- Remove a hashtag run and everything after it. -/
def hashSub (l : List Char) : List Char := hashSubGo (l.length + 1) l

/-- `title.replace('–', '-')`. -/
def endash (l : List Char) : List Char :=
  l.map (fun c => if c = '–' then '-' else c)

/-- `re.sub(r'\s+', ' ', t)`: replace each maximal whitespace run by a
single space (`prevWs` records whether the previous character was
whitespace). -/
def collapseGo (prevWs : Bool) : List Char → List Char
  | [] => []
  | c :: rs =>
    if isSpc c then
      if prevWs then collapseGo true rs else ' ' :: collapseGo true rs
    else c :: collapseGo false rs

/-- Whitespace collapse. -/
def collapseWs (l : List Char) : List Char := collapseGo false l

/-- `_clean_title` on `List Char`: a falsy (empty) title is returned
unchanged, otherwise the full pipeline runs. -/
def cleanTitleL (l : List Char) : List Char :=
  if l = [] then l
  else stripL (collapseWs (tagSub (hashSub (endash l))))

/-- `_clean_title` at the `String` interface. -/
def cleanTitle (s : String) : String := ⟨cleanTitleL s.data⟩

/-! ### `parse_youtube_url` (youtube_api.py lines 492-537) -/

inductive UrlKind where
  | video
  | playlist
  | channel
deriving DecidableEq, Repr

/-- `([a-zA-Z0-9_-]{11})`: exactly eleven id characters at the head. -/
def take11 (l : List Char) : Option (List Char) :=
  let t := l.take 11
  if t.length = 11 && t.all idChar then some t else none

/-- At one position, try each literal alternative in order, each followed
by the fixed-width 11-character group. -/
def tryLits11 : List (List Char) → List Char → Option (List Char)
  | [], _ => none
  | w :: ws, l =>
    if seqStarts w l then
      match take11 (l.drop w.length) with
      | some v => some v
      | none => tryLits11 ws l
    else tryLits11 ws l

/-- `re.search` scan for `(?:lit1|lit2|...)([a-zA-Z0-9_-]{11})`. -/
def scanLits11 (ws : List (List Char)) : List Char → Option (List Char)
  | [] => none
  | c :: rs =>
    match tryLits11 ws (c :: rs) with
    | some v => some v
    | none => scanLits11 ws rs

/-- `re.search` scan for `lit([a-zA-Z0-9_-]+)` (greedy, at least one). -/
def scanLitPlus (w : List Char) : List Char → Option (List Char)
  | [] => none
  | c :: rs =>
    if seqStarts w (c :: rs) then
      let run := ((c :: rs).drop w.length).takeWhile idChar
      if run ≠ [] then some run else scanLitPlus w rs
    else scanLitPlus w rs

/-- `re.search` scan for `[?&]list=([a-zA-Z0-9_-]+)`. -/
def scanListParam : List Char → Option (List Char)
  | [] => none
  | c :: rs =>
    if (c = '?' || c = '&') && seqStarts ("list=".data) rs then
      let run := (rs.drop 5).takeWhile idChar
      if run ≠ [] then some run else scanListParam rs
    else scanListParam rs

/-- The three video patterns, searched one after another. -/
def findVideoId (l : List Char) : Option (List Char) :=
  match scanLits11 ["youtube.com/watch?v=".data, "youtu.be/".data] l with
  | some v => some v
  | none =>
    match scanLits11 ["youtube.com/embed/".data] l with
    | some v => some v
    | none => scanLits11 ["youtube.com/v/".data] l

/-- `parse_youtube_url`: ordered pattern precedence exactly as in the
source — video patterns first, then the playlist-URL pattern, then the
`list=` parameter, then the channel patterns. -/
def parseYoutubeUrl (url : String) : Option (UrlKind × String) :=
  let l := url.data
  match findVideoId l with
  | some v => some (.video, ⟨v⟩)
  | none =>
    match scanLitPlus ("youtube.com/playlist?list=".data) l with
    | some p => some (.playlist, ⟨p⟩)
    | none =>
      match scanListParam l with
      | some p => some (.playlist, ⟨p⟩)
      | none =>
        match scanLitPlus ("youtube.com/channel/".data) l with
        | some c => some (.channel, ⟨c⟩)
        | none =>
          match scanLitPlus ("youtube.com/c/".data) l with
          | some c => some (.channel, ⟨c⟩)
          | none =>
            match scanLitPlus ("youtube.com/@".data) l with
            | some c => some (.channel, ⟨c⟩)
            | none => none

/-! ### Python truthiness helpers -/

/-- Python `a or b` on strings: keep `a` unless it is falsy (empty). -/
def pyOrStr (a b : String) : String := if a = "" then b else a

/-- Python `a or b` where both sides are an optional string
(`None` and `""` are falsy). -/
def pyOrOpt (a b : Option String) : Option String :=
  match a with
  | some s => if s = "" then b else some s
  | none => b

/-- Python truthiness of an optional string. -/
def truthyOpt (a : Option String) : Bool :=
  match a with
  | some s => s ≠ ""
  | none => false

/-! ### `get_channel_thumbnail` (youtube_api.py lines 357-381)

`channel_info` is the record the external fetch collaborator returned
(`None` models both a failed fetch and an empty record, which are falsy).
The function is a plain `or`-chain over four fields; the source contains
no avatar/banner filtering. -/

/-- One entry of a `thumbnails` list (`{url, width, height}`). -/
structure Thumb where
  url : Option String := none
  width : Option Int := none
  height : Option Int := none
deriving DecidableEq

structure ChannelInfo where
  thumbnail : Option String := none
  channel_thumbnail : Option String := none
  channel_follower_count : Option String := none
  thumbnails : List Thumb := []
deriving DecidableEq

/-- `get_channel_thumbnail`, given the fetched channel record. -/
def getChannelThumbnail (channelInfo : Option ChannelInfo) : Option String :=
  match channelInfo with
  | none => none
  | some ci =>
    pyOrOpt ci.thumbnail
      (pyOrOpt ci.channel_thumbnail
        (pyOrOpt ci.channel_follower_count
          (match ci.thumbnails with
           | [] => none
           | t :: _ => t.url)))

/-- `=s0` at an exact token boundary (followed by `-`, end of string,
`?`, or `/`) somewhere in the string: the banner/full-size marker of the
specification. -/
def bannerAt : List Char → Bool
  | '=' :: 's' :: '0' :: rest =>
    match rest with
    | [] => true
    | c :: _ => c = '-' || c = '?' || c = '/'
  | _ => false

/-- The banner marker occurs somewhere in `l`. -/
def hasBannerMarker : List Char → Bool
  | [] => false
  | c :: rs => bannerAt (c :: rs) || hasBannerMarker rs

/-! ### Audio format selection in `get_preview_stream_url`
(interface.py lines 518-545) -/

structure AudioFormat where
  acodec : Option String := none
  vcodec : Option String := none
  abr : Option Int := none
  tbr : Option Int := none
  url : Option String := none
deriving DecidableEq

/-- `fmt.get('abr', 0) or fmt.get('tbr', 0) or 0` (0, a missing key and
`None` are all falsy). -/
def effBitrate (f : AudioFormat) : Int :=
  let a := f.abr.getD 0
  if a ≠ 0 then a
  else
    let t := f.tbr.getD 0
    if t ≠ 0 then t else 0

/-- Audio-only eligibility: `vcodec == 'none'` and `acodec != 'none'`. -/
def isAudioOnly (f : AudioFormat) : Bool :=
  f.vcodec = some "none" && f.acodec ≠ some "none"

/-- First pass of the selection: for each preferred codec in order, for
each format, take an eligible format whose `acodec` starts with the
codec name; once something is selected, replace it only by a strictly
lower effective bitrate.  The source never breaks out of the codec loop,
so later-listed codecs keep competing on bitrate. -/
def firstPassSelect (formats : List AudioFormat) : Option AudioFormat :=
  ["opus", "aac", "mp3"].foldl
    (fun sel codec =>
      formats.foldl
        (fun sel f =>
          if isAudioOnly f && seqStarts codec.data ((f.acodec.getD "").data) then
            match sel with
            | none => some f
            | some cur => if effBitrate f < effBitrate cur then some f else some cur
          else sel)
        sel)
    none

/-- Stable insertion into a list already sorted by `effBitrate`
(equal keys keep their original order, as with Python's stable sort). -/
def insByBitrate (a : AudioFormat) : List AudioFormat → List AudioFormat
  | [] => [a]
  | b :: bs => if effBitrate b ≤ effBitrate a then b :: insByBitrate a bs else a :: b :: bs

/-- `audio_formats.sort(key=...)`: stable ascending sort by bitrate. -/
def sortByBitrate (fs : List AudioFormat) : List AudioFormat :=
  fs.foldl (fun acc a => insByBitrate a acc) []

/-- The format chosen by `get_preview_stream_url`: the first-pass walk
over the preferred codecs, else the eligible format of globally lowest
bitrate, else `None`. -/
def selectPreviewFormat (formats : List AudioFormat) : Option AudioFormat :=
  match firstPassSelect formats with
  | some f => some f
  | none =>
    match sortByBitrate (formats.filter isAudioOnly) with
    | [] => none
    | f :: _ => some f

/-! ### `get_track_info` (interface.py lines 270-388)

`videoData` models the video record after the cache/API lookup:
`none` models an absent or empty (falsy) record, for which the source
returns the sentinel `TrackInfo`.  Dictionary fields are modelled as
absent (`none`) or a present string; the float `sample_rate` and the
`download_extra_kwargs` dictionary are not modelled. -/

inductive CodecEnum where
  | OPUS
  | AAC
  | MP3
  | VORBIS
deriving DecidableEq, Repr

inductive QualityEnum where
  | MINIMUM
  | LOW
  | MEDIUM
  | HIGH
  | LOSSLESS
  | HIFI
deriving DecidableEq, Repr

structure RawMetadata where
  title : Option String := none
  uploader : Option String := none
  channel : Option String := none
  channel_id : Option String := none
  duration : Option Int := none
  upload_date : Option String := none
  thumbnail : Option String := none
  thumbnails : List Thumb := []
  description : Option String := none
deriving DecidableEq

structure Tags where
  release_date : Option String := none
  genres : List String := []
  description : Option String := none
deriving DecidableEq

structure TrackInfo where
  name : String
  album : String
  album_id : String
  artists : List String
  artist_id : Option String := none
  tags : Tags := {}
  codec : CodecEnum
  cover_url : String
  release_year : Int
  release_date : Option String := none
  duration : Option Int := none
  error : Option String := none
  id : String
  preview_url : Option String := none
deriving DecidableEq

/-- `t.get('width', 0) * t.get('height', 0)`. -/
def thumbArea (t : Thumb) : Int := t.width.getD 0 * t.height.getD 0

/-- Python `max(thumbnails, key=...)`: the first candidate attaining the
maximal key (later ties do not replace). -/
def maxThumb : List Thumb → Option Thumb
  | [] => none
  | t :: ts => some (ts.foldl (fun a b => if thumbArea a < thumbArea b then b else a) t)

/-- Python `int(...)` on the inputs handled here: optional sign followed
by at least one digit. -/
def pyInt (l : List Char) : Option Int :=
  let digits (d : List Char) : Option Int :=
    if d ≠ [] && d.all Char.isDigit then
      some (d.foldl (fun n c => n * 10 + (c.toNat - 48)) (0 : Int))
    else none
  match l with
  | '-' :: rest => (digits rest).map (fun n => -n)
  | '+' :: rest => digits rest
  | _ => digits l

/-- The quality-tier table `quality_to_format` (lines 342-349) and its
`.get(quality_tier, 'opus')` lookup. -/
def qualityToFormat (q : QualityEnum) : String :=
  (([(QualityEnum.HIFI, "opus"), (QualityEnum.LOSSLESS, "opus"),
     (QualityEnum.HIGH, "aac"), (QualityEnum.MEDIUM, "aac"),
     (QualityEnum.LOW, "mp3"), (QualityEnum.MINIMUM, "mp3")].lookup q).getD "opus")

/-- The `if/elif` chain turning the format string into a `CodecEnum`
(lines 354-361). -/
def formatToCodec (s : String) : CodecEnum :=
  if s = "opus" then .OPUS
  else if s = "aac" || s = "m4a" then .AAC
  else if s = "mp3" then .MP3
  else .OPUS

/-- `' - Topic'` as a character list. -/
def topicSuffixL : List Char := " - Topic".data

/-- `raw_uploader.endswith(' - Topic')`. -/
def endsWithTopic (s : String) : Bool :=
  8 ≤ s.data.length && decide (s.data.drop (s.data.length - 8) = topicSuffixL)

/-- `raw_uploader[:-8]`. -/
def dropTopic (s : String) : String := ⟨s.data.take (s.data.length - 8)⟩

/-- The uploader value before the `' - Topic'` strip:
`video_data.get('uploader', video_data.get('channel', 'Unknown')) or 'Unknown'`. -/
def rawUploader0 (vd : RawMetadata) : String :=
  pyOrStr (vd.uploader.getD (vd.channel.getD "Unknown")) "Unknown"

/-- The uploader after the `' - Topic'` strip (lines 306-307). -/
def postTopicUploader (vd : RawMetadata) : String :=
  if endsWithTopic (rawUploader0 vd) then dropTopic (rawUploader0 vd) else rawUploader0 vd

/-- The uploader after the channel-name fallback (lines 310-311). -/
def processedUploader (vd : RawMetadata) (channelName : Option String) : String :=
  if (postTopicUploader vd = "Unknown" || postTopicUploader vd = "") && truthyOpt channelName
  then channelName.getD "" else postTopicUploader vd

/-- The `(uploader, title)` pair of `get_track_info`: the cleaned title
split against the processed uploader (lines 298-316). -/
def trackTitleArtist (vd : RawMetadata) (channelName : Option String) : String × String :=
  parseTitleArtist (cleanTitle (pyOrStr (vd.title.getD "Unknown") "Unknown"))
    (processedUploader vd channelName)

/-- `get_track_info`.  `channelName` models `kwargs.get('channel_name')`. -/
def getTrackInfo (trackId : String) (qualityTier : QualityEnum)
    (videoData : Option RawMetadata) (channelName : Option String) : TrackInfo :=
  let previewUrl : Option String :=
    if trackId ≠ "" then some ("https://www.youtube.com/watch?v=" ++ trackId) else none
  match videoData with
  | none =>
    { name := "Unknown", album := "YouTube", album_id := "", artists := ["Unknown"],
      tags := {}, codec := .OPUS, cover_url := "", release_year := 2024,
      error := some "Failed to get video information", id := trackId,
      preview_url := previewUrl }
  | some vd =>
    let p := trackTitleArtist vd channelName
    let uploadDate := vd.upload_date.getD ""
    let yearDate : Int × Option String :=
      if uploadDate ≠ "" && 4 ≤ uploadDate.data.length then
        match pyInt (uploadDate.data.take 4) with
        | some y =>
          (y, if uploadDate.data.length = 8 then
                some (⟨uploadDate.data.take 4⟩ ++ "-" ++ ⟨(uploadDate.data.drop 4).take 2⟩
                      ++ "-" ++ ⟨(uploadDate.data.drop 6).take 2⟩)
              else none)
        | none => (2024, none)
      else (2024, none)
    let thumb : Option String :=
      match maxThumb vd.thumbnails with
      | some bt => match bt.url with | some u => some u | none => vd.thumbnail
      | none => vd.thumbnail
    let selectedFormat := qualityToFormat qualityTier
    { name := p.2, album := "YouTube", album_id := "youtube", artists := [p.1],
      artist_id := some (vd.channel_id.getD ""),
      tags := { release_date := yearDate.2, genres := ["YouTube"],
                description := match vd.description with
                  | some d => if d ≠ "" then some ⟨d.data.take 500⟩ else none
                  | none => none },
      codec := formatToCodec selectedFormat,
      cover_url := thumb.getD "", release_year := yearDate.1,
      release_date := yearDate.2, duration := vd.duration, error := none,
      id := trackId, preview_url := previewUrl }

/-- The codec that §4.5 step 6 / §8 of the specification assigns to each
quality tier (the spec-side table, stated for comparison with the code's
`quality_to_format` + `if/elif` chain): two high tiers OPUS, two mid
tiers AAC, two low tiers MP3. -/
def specCodecOfTier : QualityEnum → CodecEnum
  | .HIFI => .OPUS
  | .LOSSLESS => .OPUS
  | .HIGH => .AAC
  | .MEDIUM => .AAC
  | .LOW => .MP3
  | .MINIMUM => .MP3

/-- The literal phrases of the tag vocabulary (every alternative except
`Remastered \d+`). -/
def litTags : List (List Char) :=
  tagVocab.filterMap (fun p => match p with | TagPat.lit w => some w | TagPat.remNum => none)

def spacesOk : List Char → Prop
  | [] => True
  | c :: rs =>
    (isSpc c = true → c = ' ' ∧ ∀ d, rs.head? = some d → isSpc d = false) ∧ spacesOk rs

/-! ## Claim theorems -/

/-! ## Helper lemmas -/

theorem endash_idem (l : List Char) : endash (endash l) = endash l := by
  unfold endash
  rw [List.map_map]
  apply List.map_congr_left
  intro a _
  by_cases h : a = '–' <;> simp [h]

theorem collapseGo_true_head (l : List Char) (c : Char)
    (h : (collapseGo true l).head? = some c) : isSpc c = false := by
  induction l with
  | nil => simp [collapseGo] at h
  | cons d rs ih =>
    by_cases hd : isSpc d
    · rw [collapseGo, if_pos hd, if_pos rfl] at h
      exact ih h
    · rw [collapseGo, if_neg hd] at h
      simp at h
      rw [h] at hd
      simpa using hd

theorem spacesOk_collapseGo (l : List Char) : ∀ b, spacesOk (collapseGo b l) := by
  induction l with
  | nil => intro b; simp [collapseGo, spacesOk]
  | cons c rs ih =>
    intro b
    by_cases hc : isSpc c
    · cases b with
      | true => rw [collapseGo, if_pos hc, if_pos rfl]; exact ih true
      | false =>
        rw [collapseGo, if_pos hc, if_neg (by simp)]
        refine ⟨fun _ => ⟨rfl, fun d hd => collapseGo_true_head rs d hd⟩, ih true⟩
    · rw [collapseGo, if_neg hc]
      exact ⟨fun h => absurd h (by simpa using hc), ih false⟩

theorem spacesOk_dropWhile (p : Char → Bool) (l : List Char) (h : spacesOk l) :
    spacesOk (l.dropWhile p) := by
  induction l with
  | nil => simpa using h
  | cons c rs ih =>
    rw [List.dropWhile_cons]
    by_cases hc : p c
    · simp only [hc, if_pos rfl]
      exact ih h.2
    · simpa [hc] using h

theorem spacesOk_append_left (l₁ l₂ : List Char) (h : spacesOk (l₁ ++ l₂)) :
    spacesOk l₁ := by
  induction l₁ with
  | nil => trivial
  | cons c rs ih =>
    rw [List.cons_append] at h
    refine ⟨fun hc => ⟨(h.1 hc).1, fun d hd => ?_⟩, ih h.2⟩
    apply (h.1 hc).2 d
    cases rs with
    | nil => simp at hd
    | cons e rs' => simpa using hd

theorem spacesOk_stripL (l : List Char) (h : spacesOk l) : spacesOk (stripL l) := by
  unfold stripL
  have h1 := spacesOk_dropWhile isSpc l h
  obtain ⟨t, ht⟩ := List.rdropWhile_prefix isSpc (l.dropWhile isSpc)
  exact spacesOk_append_left _ t (by rw [ht]; exact h1)

theorem collapseGo_fix (l : List Char) (h : spacesOk l) :
    collapseGo false l = l
      ∧ ((∀ c, l.head? = some c → isSpc c = false) → collapseGo true l = l) := by
  induction l with
  | nil => exact ⟨rfl, fun _ => rfl⟩
  | cons c rs ih =>
    obtain ⟨ihf, iht⟩ := ih h.2
    constructor
    · by_cases hc : isSpc c
      · obtain ⟨hsp, hhd⟩ := h.1 hc
        rw [collapseGo, if_pos hc, if_neg (by simp), iht hhd, hsp]
      · rw [collapseGo, if_neg hc, ihf]
    · intro hh
      have hc : isSpc c = false := hh c rfl
      rw [collapseGo, if_neg (by simp [hc]), ihf]

theorem head_dropWhile_not (p : Char → Bool) (l : List Char) (c : Char)
    (h : (l.dropWhile p).head? = some c) : p c = false := by
  induction l with
  | nil => simp at h
  | cons d rs ih =>
    rw [List.dropWhile_cons] at h
    by_cases hd : p d
    · simp only [hd, if_pos rfl] at h
      exact ih h
    · rw [if_neg hd] at h
      simp at h
      rw [h] at hd
      simpa using hd

theorem stripL_head_not_spc (l : List Char) (c : Char)
    (h : (stripL l).head? = some c) : isSpc c = false := by
  unfold stripL at h
  obtain ⟨t, ht⟩ := List.rdropWhile_prefix isSpc (l.dropWhile isSpc)
  apply head_dropWhile_not isSpc l c
  cases hz : (l.dropWhile isSpc).rdropWhile isSpc with
  | nil => rw [hz] at h; simp at h
  | cons a z =>
    rw [hz] at h
    simp at h
    rw [← ht, hz, List.cons_append]
    simp [h]

theorem stripL_fix_of_head_not_spc (l : List Char) (c : Char)
    (hh : l.head? = some c) (hc : isSpc c = false) : l.dropWhile isSpc = l := by
  cases l with
  | nil => rfl
  | cons d rs =>
    simp at hh
    rw [List.dropWhile_cons, hh, if_neg (by simp [hc])]

theorem stripL_idem (l : List Char) : stripL (stripL l) = stripL l := by
  unfold stripL
  cases hz : (l.dropWhile isSpc).rdropWhile isSpc with
  | nil => simp
  | cons a z =>
    have ha : isSpc a = false := by
      apply stripL_head_not_spc l a
      unfold stripL
      rw [hz]
      rfl
    rw [stripL_fix_of_head_not_spc (a :: z) a rfl ha, ← hz, List.rdropWhile_idempotent]

theorem stripL_ne_nil_of_head (l : List Char) (c : Char)
    (hh : l.head? = some c) (hc : isSpc c = false) : stripL l ≠ [] := by
  unfold stripL
  rw [stripL_fix_of_head_not_spc l c hh hc]
  rw [Ne, List.rdropWhile_eq_nil_iff]
  intro hall
  cases l with
  | nil => simp at hh
  | cons d rs =>
    simp at hh
    have := hall d (by simp)
    rw [hh] at this
    rw [this] at hc
    simp at hc

theorem splitGo_structure (rest : List Char) :
    ∀ acc a t, splitGo acc rest = some (a, t) →
      ∃ l' r, a = acc ++ l' ∧ l' ≠ [] ∧ rest = l' ++ r := by
  induction rest with
  | nil => intro acc a t h; simp [splitGo] at h
  | cons c rs ih =>
    intro acc a t h
    rw [splitGo] at h
    by_cases hc : c = '\n'
    · rw [if_pos hc] at h; simp at h
    · rw [if_neg hc] at h
      cases hm : matchSepTail rs with
      | some tt =>
        rw [hm] at h
        simp at h
        exact ⟨[c], rs, by rw [← h.1], by simp, rfl⟩
      | none =>
        rw [hm] at h
        obtain ⟨l'', r, ha, hne, hr⟩ := ih (acc ++ [c]) a t h
        exact ⟨c :: l'', r, by simp [ha], by simp, by simp [hr]⟩

theorem pyMatchSplit_head (s a t : List Char)
    (h : pyMatchSplit s = some (a, t)) : a ≠ [] ∧ a.head? = s.head? := by
  obtain ⟨l', r, ha, hne, hr⟩ := splitGo_structure s [] a t h
  rw [List.nil_append] at ha
  subst ha
  subst hr
  refine ⟨hne, ?_⟩
  cases a with
  | nil => exact absurd rfl hne
  | cons x xs => rfl

theorem cleanTitleL_head_not_spc (l : List Char) (c : Char)
    (h : (cleanTitleL l).head? = some c) : isSpc c = false := by
  unfold cleanTitleL at h
  by_cases hl : l = []
  · rw [if_pos hl, hl] at h
    simp at h
  · rw [if_neg hl] at h
    exact stripL_head_not_spc _ c h

theorem parseTitleArtistL_artist_ne_nil (titleL uploader : List Char)
    (hup : uploader ≠ []) (z : List Char) (hclean : titleL = cleanTitleL z) :
    (parseTitleArtistL titleL uploader).1 ≠ [] := by
  unfold parseTitleArtistL
  cases hm : pyMatchSplit titleL with
  | none => exact hup
  | some p =>
    obtain ⟨a, t⟩ := p
    obtain ⟨hne, hh⟩ := pyMatchSplit_head titleL a t hm
    by_cases hcont : (seqHas (lowerL uploader) (lowerL (stripL a))
        || seqHas (lowerL (stripL a)) (lowerL uploader)) = true
    · simp only [hcont, if_pos rfl]
      obtain ⟨c, hc⟩ : ∃ c, a.head? = some c := by
        cases a with
        | nil => exact absurd rfl hne
        | cons x xs => exact ⟨x, rfl⟩
      have hcs : isSpc c = false := by
        apply cleanTitleL_head_not_spc z c
        rw [← hclean, ← hh]
        exact hc
      exact stripL_ne_nil_of_head a c hc hcs
    · simp only [hcont]
      simp
      intro hfalse
      exact absurd hfalse hup

theorem strMk_ne_empty (l : List Char) (h : l ≠ []) : (⟨l⟩ : String) ≠ "" := by
  intro hc
  exact h (congrArg String.data hc)

theorem str_data_ne_nil (s : String) (h : s ≠ "") : s.data ≠ [] := by
  intro hc
  apply h
  cases s
  simp at hc
  rw [hc]

theorem rawUploader0_ne_empty (vd : RawMetadata) : rawUploader0 vd ≠ "" := by
  unfold rawUploader0 pyOrStr
  by_cases h : vd.uploader.getD (vd.channel.getD "Unknown") = ""
  · rw [if_pos h]; decide
  · rw [if_neg h]; exact h

theorem dropTopic_ne_empty (s : String) (he : endsWithTopic s = true)
    (hs : s ≠ " - Topic") : dropTopic s ≠ "" := by
  unfold endsWithTopic at he
  simp only [Bool.and_eq_true, decide_eq_true_eq] at he
  obtain ⟨hlen, hdrop⟩ := he
  apply strMk_ne_empty
  intro hc
  rcases List.take_eq_nil_iff.mp hc with h0 | h0
  · have h8 : s.data.length = 8 := by omega
    apply hs
    have : s.data = topicSuffixL := by
      rw [← hdrop, h8]
      simp
    cases s
    simp only at this
    rw [this]
    rfl
  · rw [h0] at hlen
    simp at hlen

theorem postTopicUploader_ne_empty (vd : RawMetadata)
    (h : rawUploader0 vd ≠ " - Topic") : postTopicUploader vd ≠ "" := by
  unfold postTopicUploader
  by_cases ht : endsWithTopic (rawUploader0 vd) = true
  · rw [if_pos ht]
    exact dropTopic_ne_empty _ ht h
  · rw [if_neg ht]
    exact rawUploader0_ne_empty vd

theorem processedUploader_ne_empty (vd : RawMetadata) (cn : Option String)
    (h : rawUploader0 vd ≠ " - Topic" ∨ truthyOpt cn = true) :
    processedUploader vd cn ≠ "" := by
  unfold processedUploader
  by_cases hcond : ((postTopicUploader vd = "Unknown" || postTopicUploader vd = "")
      && truthyOpt cn) = true
  · rw [if_pos hcond]
    simp only [Bool.and_eq_true] at hcond
    cases cn with
    | none => simp [truthyOpt] at hcond
    | some s =>
      simp only [truthyOpt, decide_eq_true_eq] at hcond
      simpa using hcond.2
  · rw [if_neg hcond]
    rcases h with h1 | h2
    · exact postTopicUploader_ne_empty vd h1
    · intro hemp
      apply hcond
      simp [hemp, h2]


/-- C1: on the locator `https://youtube.com/watch?v=dQw4w9WgXcQ&list=PL123`,
which carries both an embedded video id and a playlist parameter, the
code classifies the URL as a *video* with id `dQw4w9WgXcQ` — not as the
playlist `PL123` that the claim (and the source's own comment
`If there's also a video ID, return the playlist`) requires: the video
patterns are searched before the `list=` parameter is ever examined. -/
theorem c1_watch_list_url_classified_as_video :
    parseYoutubeUrl "https://youtube.com/watch?v=dQw4w9WgXcQ&list=PL123"
      = some (UrlKind.video, "dQw4w9WgXcQ") := by
  decide

/-- C2 counterexample: the claim asserts
`split("Review - Some Product", "TechReviewer")` returns the uploader
fallback `("TechReviewer", "Review - Some Product")`; in fact the
containment check passes (`"review"` is a substring of
`"techreviewer"`), so the split is accepted and the code returns
`("Review", "Some Product")`. -/
theorem c2_counterexample_review_split_accepted :
    parseTitleArtist "Review - Some Product" "TechReviewer" = ("Review", "Some Product")
      ∧ parseTitleArtist "Review - Some Product" "TechReviewer"
          ≠ ("TechReviewer", "Review - Some Product") := by
  decide

/-- C2 (amended): whenever the title matches the
`<artist> SEP <title>` pattern but the case-insensitive containment
check between the stripped artist group and the uploader fails in both
directions, `_parse_title_artist` returns `(uploader, title)`
unchanged.  (The claim's concrete example does not witness this case,
since there the containment check succeeds.) -/
theorem c2_amended_containment_failure_falls_back
    (title uploader a t : List Char)
    (hm : pyMatchSplit title = some (a, t))
    (hc : (seqHas (lowerL uploader) (lowerL (stripL a))
           || seqHas (lowerL (stripL a)) (lowerL uploader)) = false) :
    parseTitleArtistL title uploader = (uploader, title) := by
  unfold parseTitleArtistL
  rw [hm]
  simp [hc]

/-- C2 amended, witnessed at `split("Review - Some Product", "SomeChannel")`,
where the containment check really does fail. -/
theorem c2_amended_witness :
    parseTitleArtistL "Review - Some Product".data "SomeChannel".data
      = ("SomeChannel".data, "Review - Some Product".data) :=
  c2_amended_containment_failure_falls_back
    "Review - Some Product".data "SomeChannel".data
    "Review".data "Some Product".data (by decide) (by decide)

/-- C3: with an eligible opus format of bitrate 96 and an eligible mp3
format of bitrate 64, the code selects the *mp3* format, although the
preference list is `['opus', 'aac', 'mp3']` and an eligible opus format
exists.  The claim (and the source's own comment
`Format priority: audio-only with opus > aac > mp3`) requires the opus
format; the inner loop never stops once a preferred codec has matched,
so the later-listed mp3 format wins on bitrate. -/
theorem c3_later_codec_lower_bitrate_wins :
    selectPreviewFormat
        [{ acodec := some "opus", vcodec := some "none", abr := some 96 },
         { acodec := some "mp3", vcodec := some "none", abr := some 64 }]
      = some { acodec := some "mp3", vcodec := some "none", abr := some 64 } := by
  decide

/-- C4 counterexample: with a channel record whose only thumbnail field
is a URL carrying the banner marker `=s0` at an exact token boundary
(end of string), `get_channel_thumbnail` returns that banner URL — the
claim says an `AvatarOnly` selection never does, even for a sole
candidate. -/
theorem c4_counterexample_banner_url_returned :
    getChannelThumbnail (some { thumbnail := some "https://yt3.ggpht.com/banner=s0" })
        = some "https://yt3.ggpht.com/banner=s0"
      ∧ hasBannerMarker "https://yt3.ggpht.com/banner=s0".data = true := by
  decide

/-- C4 (amended): `get_channel_thumbnail` performs no avatar/banner
filtering at all: whenever the fetched record's `thumbnail` field is a
non-empty string it is returned as-is — even when it carries the `=s0`
banner marker — and otherwise the code falls back to
`channel_thumbnail`, `channel_follower_count` and the first entry of
`thumbnails`, returning `None` only when every field is falsy. -/
theorem c4_amended_thumbnail_field_precedence
    (ci : ChannelInfo) (u : String)
    (h : ci.thumbnail = some u) (hu : u ≠ "") :
    getChannelThumbnail (some ci) = some u := by
  simp only [getChannelThumbnail, pyOrOpt, h]
  simp [hu]

/-- C4 amended, witnessed at a record whose `thumbnail` field is the
banner URL itself. -/
theorem c4_amended_witness :
    getChannelThumbnail (some { thumbnail := some "https://yt3.ggpht.com/banner=s0" })
      = some "https://yt3.ggpht.com/banner=s0" :=
  c4_amended_thumbnail_field_precedence
    { thumbnail := some "https://yt3.ggpht.com/banner=s0" }
    "https://yt3.ggpht.com/banner=s0" rfl (by decide)

/-- C5 counterexample: `strip` is not idempotent.  On
`"b-- Video - HD."` the first pass removes `"- Video -"` — consuming
the `-` that delimited `HD` on the left — and yields `"b- HD."`; a
second pass then also removes `"- HD."`, yielding `"b"`. -/
theorem c5_counterexample_strip_not_idempotent :
    cleanTitle (cleanTitle "b-- Video - HD.") ≠ cleanTitle "b-- Video - HD."
      ∧ cleanTitle "b-- Video - HD." = "b- HD."
      ∧ cleanTitle (cleanTitle "b-- Video - HD.") = "b" := by
  decide

/-- C5 (amended): the full `strip` pipeline is *not* idempotent (removing
a tag consumes its closing delimiter, which may have been the opening
delimiter of the next tag occurrence), but the surrounding stages are:
dash normalization is idempotent, and so is the final
whitespace-collapse-and-trim stage. -/
theorem c5_amended_stage_idempotence (l : List Char) :
    endash (endash l) = endash l
      ∧ stripL (collapseWs (stripL (collapseWs l))) = stripL (collapseWs l) := by
  refine ⟨endash_idem l, ?_⟩
  have hok : spacesOk (stripL (collapseWs l)) :=
    spacesOk_stripL _ (spacesOk_collapseGo l false)
  have hfix : collapseWs (stripL (collapseWs l)) = stripL (collapseWs l) :=
    (collapseGo_fix _ hok).1
  rw [hfix, stripL_idem]

/-- C6 counterexample: the vocabulary tag `Video` at the very start of
`"Video - song"`, delimited on its left by start-of-string and on its
right by the separator `-`, is *not* removed: the compiled pattern
requires an opening delimiter character before the tag, so start-of-string
does not anchor a match and `strip` returns the title unchanged. -/
theorem c6_counterexample_start_anchored_tag_kept :
    TagPat.lit "Video".data ∈ tagVocab
      ∧ cleanTitle "Video - song" = "Video - song" := by
  decide

set_option maxRecDepth 10000 in
/-- C6 (amended): a vocabulary tag is removed when it is *preceded* by
one of the opening delimiter characters `( [ { | - . / • +` and followed
by one of `) ] } | - . / • +` or by end-of-string; only the right-hand
delimiter may be replaced by end-of-string — a leading delimiter
character is required, so start-of-string does not anchor a removal.
Verified here for every literal phrase of the vocabulary, both
end-anchored (`"x - TAG"` becomes `"x"`) and bracket-delimited
(`"x (TAG) y"` becomes `"x y"`). -/
theorem c6_amended_delimited_tags_removed :
    ∀ w ∈ litTags,
      cleanTitleL ("x - ".data ++ w) = "x".data
        ∧ cleanTitleL ("x (".data ++ w ++ ") y".data) = "x y".data := by
  decide

/-- C6 amended, witnessed at the vocabulary phrase `Official Video`. -/
theorem c6_amended_witness :
    cleanTitleL ("x - ".data ++ "Official Video".data) = "x".data
      ∧ cleanTitleL ("x (".data ++ "Official Video".data ++ ") y".data) = "x y".data :=
  c6_amended_delimited_tags_removed "Official Video".data (by decide)

/-- C7: for every present video record (and every caller-supplied id and
channel-name fallback) the codec chosen by `get_track_info` is exactly
the fixed tier table of the specification: HIFI/LOSSLESS map to OPUS,
HIGH/MEDIUM to AAC, LOW/MINIMUM to MP3 (the `.get` default `'opus'` is
unreachable since the table covers every `QualityEnum` member). -/
theorem c7_quality_tier_codec_mapping
    (trackId : String) (tier : QualityEnum) (vd : RawMetadata) (cn : Option String) :
    (getTrackInfo trackId tier (some vd) cn).codec = specCodecOfTier tier := by
  cases tier <;> rfl

/-- C8: when the video record is absent/empty, `get_track_info` returns
normally (it is a total function of its inputs) and the result is the
sentinel record whose `error` field is the non-empty string
`"Failed to get video information"`. -/
theorem c8_missing_metadata_sentinel
    (trackId : String) (tier : QualityEnum) (cn : Option String) :
    (getTrackInfo trackId tier none cn).error = some "Failed to get video information"
      ∧ "Failed to get video information" ≠ "" := by
  exact ⟨rfl, by decide⟩

/-- C9 counterexample: with `title = "#x"` (cleaned to the empty string
by hashtag removal) and `uploader = " - Topic"` (emptied by the
`' - Topic'` suffix strip) and no channel-name fallback, the canonical
track has an empty name *and* an empty artist, violating the invariant
that title and artist are never both empty (and that artist is always
non-empty). -/
theorem c9_counterexample_title_and_artist_both_empty :
    (getTrackInfo "abc" QualityEnum.LOW
        (some { title := some "#x", uploader := some " - Topic" }) none).name = ""
      ∧ (getTrackInfo "abc" QualityEnum.LOW
          (some { title := some "#x", uploader := some " - Topic" }) none).artists = [""] := by
  decide

/-- C9 (amended): for every present video record, provided the raw
uploader/channel value is not exactly `' - Topic'` (whose suffix strip
empties the uploader) or a non-empty channel-name fallback is supplied,
the canonical track's artist is a non-empty string — hence title and
artist are never both empty — and the codec is always one of
OPUS, AAC, MP3 (a subset of the four enumerated values, OPUS by
default).  Without that proviso both fields can be empty, as the
counterexample shows. -/
theorem c9_amended_artist_nonempty (trackId : String) (tier : QualityEnum)
    (vd : RawMetadata) (cn : Option String)
    (h : rawUploader0 vd ≠ " - Topic" ∨ truthyOpt cn = true) :
    (∃ a, (getTrackInfo trackId tier (some vd) cn).artists = [a] ∧ a ≠ "")
      ∧ ((getTrackInfo trackId tier (some vd) cn).codec = CodecEnum.OPUS
         ∨ (getTrackInfo trackId tier (some vd) cn).codec = CodecEnum.AAC
         ∨ (getTrackInfo trackId tier (some vd) cn).codec = CodecEnum.MP3) := by
  constructor
  · refine ⟨(trackTitleArtist vd cn).1, rfl, ?_⟩
    have hup := processedUploader_ne_empty vd cn h
    show (parseTitleArtist (cleanTitle (pyOrStr (vd.title.getD "Unknown") "Unknown"))
      (processedUploader vd cn)).1 ≠ ""
    unfold parseTitleArtist
    apply strMk_ne_empty
    apply parseTitleArtistL_artist_ne_nil _ _ (str_data_ne_nil _ hup)
      (pyOrStr (vd.title.getD "Unknown") "Unknown").data
    rfl
  · cases tier with
    | MINIMUM => exact Or.inr (Or.inr rfl)
    | LOW => exact Or.inr (Or.inr rfl)
    | MEDIUM => exact Or.inr (Or.inl rfl)
    | HIGH => exact Or.inr (Or.inl rfl)
    | LOSSLESS => exact Or.inl rfl
    | HIFI => exact Or.inl rfl

/-- C9 amended, witnessed at a well-formed record. -/
theorem c9_amended_witness :
    (∃ a, (getTrackInfo "abc" QualityEnum.HIFI
        (some { title := some "Artist - Song", uploader := some "Artist" }) none).artists
          = [a] ∧ a ≠ "")
      ∧ ((getTrackInfo "abc" QualityEnum.HIFI
            (some { title := some "Artist - Song", uploader := some "Artist" }) none).codec
              = CodecEnum.OPUS
         ∨ (getTrackInfo "abc" QualityEnum.HIFI
              (some { title := some "Artist - Song", uploader := some "Artist" }) none).codec
              = CodecEnum.AAC
         ∨ (getTrackInfo "abc" QualityEnum.HIFI
              (some { title := some "Artist - Song", uploader := some "Artist" }) none).codec
              = CodecEnum.MP3) :=
  c9_amended_artist_nonempty "abc" QualityEnum.HIFI
    { title := some "Artist - Song", uploader := some "Artist" } none (Or.inl (by decide))

/-- C10: when the uploader argument is the empty string, the
case-insensitive containment guard passes trivially (the empty string is
a substring of everything), so whenever the title matches the
`<artist> SEP <title>` pattern the split is accepted and
`_parse_title_artist` returns the stripped match groups rather than the
uploader fallback. -/
theorem c10_empty_uploader_accepts_split
    (title a t : List Char) (hm : pyMatchSplit title = some (a, t)) :
    parseTitleArtistL title [] = (stripL a, stripL t) := by
  unfold parseTitleArtistL
  rw [hm]
  have h : seqHas (lowerL []) (lowerL (stripL a)) = true := by
    unfold lowerL
    cases stripL a <;> rfl
  simp [h]

/-- C10, witnessed at `split("Some One - Thing", "")`. -/
theorem c10_witness :
    parseTitleArtistL "Some One - Thing".data [] = ("Some One".data, "Thing".data) :=
  c10_empty_uploader_accepts_split "Some One - Thing".data
    "Some One".data "Thing".data (by decide)

end YT
